import Mathlib

/-!
Verification of the "Beside the Point" notebook (`solution_nov24.ipynb`).

The notebook has two components:
* a vectorized Monte Carlo simulator `vectorized_simulation` working on
  arrays of blue points (rejection-sampled from the triangle where the
  bottom edge is nearest) and red points (uniform on the unit square);
* an exact evaluator built from the pure geometry functions
  `r1`, `r2`, `c_ad`, `c_bd`, `intersection_area`, `A`.

The simulator is embedded over `ℚ` (its per-pair logic is rational
arithmetic and comparisons); the geometry functions are embedded over `ℝ`
(they use `sqrt`, `arccos`, `sin`, `π`).  Randomness is made explicit:
the rejection-sampling loop consumes a list of batches drawn from the
random source, and the pair evaluator takes the blue/red arrays as
arguments.
-/

namespace BesideThePoint

/-- Point in the plane with rational coordinates, as used by the simulator. -/
abbrev Pt := ℚ × ℚ

/-- Membership test of the blue region, from the rejection-sampling filter
`(pts[:,1] <= 0.5) & (pts[:,1] <= pts[:,0]) & (pts[:,1] <= 1 - pts[:,0])`. -/
def isValidBlue (p : Pt) : Bool :=
  decide (p.2 ≤ 1/2) && decide (p.2 ≤ p.1) && decide (p.2 ≤ 1 - p.1)

/-- Rejection-sampling loop of `vectorized_simulation`: starting from the
accumulator `acc` (initially empty), it keeps appending the valid points of
each successive random batch while fewer than `N` points are accumulated,
then truncates to exactly `N` (`blue = np.array(blue[:num_samples])`).
`none` models the Python loop never returning because the supplied random
batches are exhausted before `N` valid points exist. -/
def rejectionLoop (N : ℕ) : List (List Pt) → List Pt → Option (List Pt)
  | [], acc => if N ≤ acc.length then some (acc.take N) else none
  | b :: bs, acc =>
    if N ≤ acc.length then some (acc.take N)
    else rejectionLoop N bs (acc ++ b.filter isValidBlue)

/-- Absolute tolerance passed to `np.isclose` in the degeneracy mask
(`atol=1e-8`). -/
def atol : ℚ := 1 / 100000000

/-- Relative tolerance of `np.isclose`; the call in the source does not
override it, so numpy's default `rtol=1e-5` applies. -/
def rtol : ℚ := 1 / 100000

/-- Test performed by `np.isclose(red[:, 0], blue[:, 0], atol=1e-8)` on one
pair: `|a - b| <= atol + rtol * |b|` with `a` the red x-coordinate and `b`
the blue x-coordinate. -/
def isclose (a b : ℚ) : Bool :=
  decide (|a - b| ≤ atol + rtol * |b|)

/-- Degeneracy mask of `vectorized_simulation`:
`mask = ~np.isclose(red[:, 0], blue[:, 0], atol=1e-8)`; `true` means the
pair is retained. -/
def pairKept (b r : Pt) : Bool :=
  !(isclose r.1 b.1)

/-- Candidate boundary point of a retained pair:
`a = (x2² - x1² + y2² - y1²) / (2(x2 - x1))`. -/
def aVal (b r : Pt) : ℚ :=
  (r.1 ^ 2 - b.1 ^ 2 + r.2 ^ 2 - b.2 ^ 2) / (2 * (r.1 - b.1))

/-- Success test `(a_vals >= 0) & (a_vals <= 1)`, bounds inclusive. -/
def isSuccess (b r : Pt) : Bool :=
  decide (0 ≤ aVal b r) && decide (aVal b r ≤ 1)

/-- Pair-evaluation core of `vectorized_simulation` on explicit blue/red
arrays: count the successes among the retained pairs and divide by the
number of retained pairs (`successes / np.sum(mask)`).  The division is
unguarded in the source; when the retained count is `0`, numpy's `0/0`
yields NaN, which the embedding represents as `none`. -/
def vectorized_simulation (blue red : List Pt) : Option ℚ :=
  let pairs := blue.zip red
  let kept := pairs.filter fun p => pairKept p.1 p.2
  let succ := kept.filter fun p => isSuccess p.1 p.2
  if kept.length = 0 then none
  else some ((succ.length : ℚ) / (kept.length : ℚ))

/-- Claim C1: for every retained pair the candidate boundary point is
`a = (x2² - x1² + y2² - y1²) / (2(x2 - x1))`, the pair counts as a success
exactly when `0 ≤ a ≤ 1` with both bounds inclusive, and the returned value
is the number of successes divided by the number of retained pairs. -/
theorem c1_success_fraction (blue red : List Pt)
    (h : ((blue.zip red).filter fun p => pairKept p.1 p.2).length ≠ 0) :
    vectorized_simulation blue red =
      some
        (((((blue.zip red).filter fun p => pairKept p.1 p.2).filter fun p =>
            decide (0 ≤ (p.2.1 ^ 2 - p.1.1 ^ 2 + p.2.2 ^ 2 - p.1.2 ^ 2) /
                (2 * (p.2.1 - p.1.1))) &&
            decide ((p.2.1 ^ 2 - p.1.1 ^ 2 + p.2.2 ^ 2 - p.1.2 ^ 2) /
                (2 * (p.2.1 - p.1.1)) ≤ 1)).length : ℚ) /
          (((blue.zip red).filter fun p => pairKept p.1 p.2).length : ℚ)) := by
  simp only [vectorized_simulation, isSuccess, aVal]
  rw [if_neg h]

/-- Claim C1 witness: one pair, blue `(1/2, 1/4)`, red `(3/4, 1/2)`; the
pair is retained, `a = 1` exactly, and the inclusive bound makes it a
success, so the returned fraction is `1`. -/
theorem c1_success_fraction_witness :
    (([((1:ℚ)/2, (1:ℚ)/4)].zip [((3:ℚ)/4, (1:ℚ)/2)]).filter fun p =>
        pairKept p.1 p.2).length ≠ 0 ∧
    vectorized_simulation [((1:ℚ)/2, (1:ℚ)/4)] [((3:ℚ)/4, (1:ℚ)/2)] =
      some 1 := by
  refine ⟨?_, ?_⟩
  · norm_num [List.filter, pairKept, isclose, atol, rtol, abs_of_nonneg]
  · rw [c1_success_fraction _ _
      (by norm_num [List.filter, pairKept, isclose, atol, rtol, abs_of_nonneg])]
    norm_num [List.filter, pairKept, isclose, atol, rtol, abs_of_nonneg]

/-- Claim C2 counterexample: the claim says a pair is excluded exactly when
`|x2 - x1|` is below the absolute tolerance `1e-8`.  With blue x-coordinate
`1/2` and red x-coordinate `1/2 + 2e-6` the gap is `2e-6`, far above
`1e-8`, yet `np.isclose` (whose default relative tolerance `1e-5` is not
overridden by the source call) still reports closeness, so the pair is
excluded. -/
theorem c2_counterexample :
    pairKept ((1:ℚ)/2, (1:ℚ)/4) ((1:ℚ)/2 + 1/500000, (1:ℚ)/2) = false ∧
    ¬ |((1:ℚ)/2 + 1/500000) - 1/2| < 1/100000000 := by
  constructor
  · norm_num [pairKept, isclose, atol, rtol, abs_of_nonneg]
  · norm_num [abs_of_nonneg]

/-- Claim C2 amended: pair `i` is excluded from both the numerator and the
denominator exactly when `|x2 - x1| ≤ 1e-8 + 1e-5·|x1|`, the `np.isclose`
test with absolute tolerance `1e-8` and numpy's default relative tolerance
`1e-5`; in particular a pair with `x1 = x2` exactly is excluded and the
success fraction is computed without any division error. -/
theorem c2_exclusion_tolerance (b r : Pt) :
    (pairKept b r = false ↔ |r.1 - b.1| ≤ 1/100000000 + 1/100000 * |b.1|) ∧
    (b.1 = r.1 → vectorized_simulation [b] [r] = none) := by
  constructor
  · simp [pairKept, isclose, atol, rtol]
  · intro hx
    have hc : isclose r.1 b.1 = true := by
      simp only [isclose, atol, rtol, decide_eq_true_eq, ← hx, sub_self,
        abs_zero]
      positivity
    simp [vectorized_simulation, List.filter, pairKept, hc]

/-- Claim C2 amended witness: blue `(1/2, 1/4)` and red `(1/2, 3/4)` share
the x-coordinate `1/2` exactly; the pair is excluded (gap `0` is within
tolerance) and the function returns the NaN marker rather than raising. -/
theorem c2_exclusion_tolerance_witness :
    ((1:ℚ)/2 = (1:ℚ)/2) ∧
    (pairKept ((1:ℚ)/2, (1:ℚ)/4) ((1:ℚ)/2, (3:ℚ)/4) = false ↔
      |((1:ℚ)/2, (3:ℚ)/4).1 - (1:ℚ)/2| ≤
        1/100000000 + 1/100000 * |(1:ℚ)/2|) ∧
    vectorized_simulation [((1:ℚ)/2, (1:ℚ)/4)] [((1:ℚ)/2, (3:ℚ)/4)] =
      none :=
  ⟨rfl, (c2_exclusion_tolerance ((1:ℚ)/2, (1:ℚ)/4) ((1:ℚ)/2, (3:ℚ)/4)).1,
    (c2_exclusion_tolerance ((1:ℚ)/2, (1:ℚ)/4) ((1:ℚ)/2, (3:ℚ)/4)).2 rfl⟩

/-- Full run of the body of `vectorized_simulation` after the sampling
loop, including the conversion `blue = np.array(blue[:num_samples])`.
When the accumulated list is empty (`num_samples = 0`), `np.array([])` is
a one-dimensional array of shape `(0,)`, so the column access
`blue[:, 0]` inside the `np.isclose` call raises `IndexError` before any
division is reached; this is `Except.error ()`.  (The red array comes
from `np.random.rand(num_samples, 2)` and is two-dimensional even when
empty, so only the blue conversion can fail.)  Otherwise the pair
evaluation proceeds: `Except.ok none` stands for numpy's NaN from the
unguarded `0/0` and `Except.ok (some q)` for a returned probability. -/
def vectorized_simulation_run (blue red : List Pt) : Except Unit (Option ℚ) :=
  if blue.length = 0 then Except.error ()
  else Except.ok (vectorized_simulation blue red)

/-- Claim C10 counterexample: at `num_samples = 0` the rejection loop
yields the empty blue list, and the run raises `IndexError` at
`blue[:, 0]` (the empty `np.array` is one-dimensional) instead of
returning the NaN quotient `0/0` without raising, as the claim states. -/
theorem c10_counterexample :
    rejectionLoop 0 [] [] = some [] ∧
    vectorized_simulation_run [] [] = Except.error () := by
  constructor
  · rfl
  · rfl

/-- Claim C10 amended: the final division in `vectorized_simulation` is
unguarded: for `num_samples ≥ 1` (nonempty blue array), when every pair is
excluded by the degeneracy mask the retained count is zero and the
function still returns without raising an exception, its result the
indeterminate quotient `0/0` (NaN, modelled as `Except.ok none`) rather
than a probability in `[0,1]`; at `num_samples = 0`, however, the function
raises an `IndexError` at `blue[:, 0]` before the division is reached. -/
theorem c10_unguarded_division (blue red : List Pt) (hb : blue.length ≠ 0)
    (h : ((blue.zip red).filter fun p => pairKept p.1 p.2).length = 0) :
    vectorized_simulation_run blue red = Except.ok none := by
  rw [vectorized_simulation_run, if_neg hb]
  simp only [vectorized_simulation]
  rw [if_pos h]

/-- Claim C10 amended witness: a single pair whose points share the
x-coordinate `1/2` is excluded by the mask, so the retained count is zero
and the run returns the NaN marker without raising. -/
theorem c10_unguarded_division_witness :
    [((1:ℚ)/2, (1:ℚ)/4)].length ≠ 0 ∧
    (([((1:ℚ)/2, (1:ℚ)/4)].zip [((1:ℚ)/2, (1:ℚ)/2)]).filter fun p =>
        pairKept p.1 p.2).length = 0 ∧
    vectorized_simulation_run [((1:ℚ)/2, (1:ℚ)/4)] [((1:ℚ)/2, (1:ℚ)/2)] =
      Except.ok none := by
  have hb : [((1:ℚ)/2, (1:ℚ)/4)].length ≠ 0 := by
    simp
  have h : (([((1:ℚ)/2, (1:ℚ)/4)].zip [((1:ℚ)/2, (1:ℚ)/2)]).filter fun p =>
      pairKept p.1 p.2).length = 0 := by
    norm_num [List.filter, pairKept, isclose, atol, rtol, abs_of_nonneg]
  exact ⟨hb, h, c10_unguarded_division _ _ hb h⟩

/-- Invariant of the rejection-sampling loop: if every accumulated point
already passed the filter and satisfies `Q`, and every point of every
remaining batch satisfies `Q`, then a successful run returns exactly `N`
points, all filtered and satisfying `Q`. -/
theorem rejectionLoop_spec (N : ℕ) (Q : Pt → Prop) (batches : List (List Pt))
    (acc : List Pt) (hacc : ∀ p ∈ acc, isValidBlue p = true ∧ Q p)
    (hb : ∀ b ∈ batches, ∀ p ∈ b, Q p)
    (out : List Pt) (hout : rejectionLoop N batches acc = some out) :
    out.length = N ∧ ∀ p ∈ out, isValidBlue p = true ∧ Q p := by
  induction batches generalizing acc with
  | nil =>
    simp only [rejectionLoop] at hout
    split at hout
    · obtain rfl : acc.take N = out := Option.some.inj hout
      constructor
      · simp only [List.length_take]
        omega
      · exact fun p hp => hacc p (List.take_subset N acc hp)
    · exact absurd hout (by simp)
  | cons b bs ih =>
    simp only [rejectionLoop] at hout
    split at hout
    · obtain rfl : acc.take N = out := Option.some.inj hout
      constructor
      · simp only [List.length_take]
        omega
      · exact fun p hp => hacc p (List.take_subset N acc hp)
    · refine ih (acc ++ b.filter isValidBlue) ?_ ?_ hout
      · intro p hp
        rcases List.mem_append.mp hp with hp | hp
        · exact hacc p hp
        · obtain ⟨hpb, hpv⟩ := List.mem_filter.mp hp
          exact ⟨hpv, hb b (List.mem_cons_self b bs) p hpb⟩
      · exact fun c hc p hp => hb c (List.mem_cons_of_mem b hc) p hp

/-- Claim C7: for every target count `N ≥ 1`, whenever the rejection
sampler of `vectorized_simulation` terminates on batches of points drawn
from `[0,1)²` it returns exactly `N` points, each satisfying the triangle
membership predicate `0 ≤ y ≤ 1/2`, `y ≤ x`, `y ≤ 1 - x`, with both
coordinates in `[0,1]`. -/
theorem c7_sampler (N : ℕ) (hN : 1 ≤ N) (batches : List (List Pt))
    (hb : ∀ b ∈ batches, ∀ p ∈ b, 0 ≤ p.1 ∧ p.1 < 1 ∧ 0 ≤ p.2 ∧ p.2 < 1)
    (out : List Pt) (hout : rejectionLoop N batches [] = some out) :
    out.length = N ∧ ∀ p ∈ out,
      (0 ≤ p.2 ∧ p.2 ≤ 1/2 ∧ p.2 ≤ p.1 ∧ p.2 ≤ 1 - p.1) ∧
      (0 ≤ p.1 ∧ p.1 ≤ 1) ∧ (0 ≤ p.2 ∧ p.2 ≤ 1) := by
  obtain ⟨hlen, hmem⟩ :=
    rejectionLoop_spec N (fun p => 0 ≤ p.1 ∧ p.1 < 1 ∧ 0 ≤ p.2 ∧ p.2 < 1)
      batches [] (by simp) hb out hout
  refine ⟨hlen, fun p hp => ?_⟩
  obtain ⟨hv, hq⟩ := hmem p hp
  simp only [isValidBlue, Bool.and_eq_true, decide_eq_true_eq] at hv
  exact ⟨⟨hq.2.2.1, hv.1.1, hv.1.2, hv.2⟩, ⟨hq.1, le_of_lt hq.2.1⟩,
    ⟨hq.2.2.1, le_of_lt hq.2.2.2⟩⟩

/-- Claim C7 witness: target count `1` with a single batch holding the
point `(1/2, 1/4)` of the triangle; the sampler returns exactly that one
point and it satisfies all the predicates. -/
theorem c7_sampler_witness :
    1 ≤ 1 ∧
    (∀ b ∈ [[((1:ℚ)/2, (1:ℚ)/4)]], ∀ p ∈ b,
      0 ≤ p.1 ∧ p.1 < 1 ∧ 0 ≤ p.2 ∧ p.2 < 1) ∧
    rejectionLoop 1 [[((1:ℚ)/2, (1:ℚ)/4)]] [] = some [((1:ℚ)/2, (1:ℚ)/4)] ∧
    ([((1:ℚ)/2, (1:ℚ)/4)].length = 1 ∧ ∀ p ∈ [((1:ℚ)/2, (1:ℚ)/4)],
      (0 ≤ p.2 ∧ p.2 ≤ 1/2 ∧ p.2 ≤ p.1 ∧ p.2 ≤ 1 - p.1) ∧
      (0 ≤ p.1 ∧ p.1 ≤ 1) ∧ (0 ≤ p.2 ∧ p.2 ≤ 1)) := by
  have hb : ∀ b ∈ [[((1:ℚ)/2, (1:ℚ)/4)]], ∀ p ∈ b,
      0 ≤ p.1 ∧ p.1 < 1 ∧ 0 ≤ p.2 ∧ p.2 < 1 := by
    intro b hbm p hp
    simp only [List.mem_singleton] at hbm
    subst hbm
    simp only [List.mem_singleton] at hp
    subst hp
    norm_num
  have hout : rejectionLoop 1 [[((1:ℚ)/2, (1:ℚ)/4)]] [] =
      some [((1:ℚ)/2, (1:ℚ)/4)] := by
    norm_num [rejectionLoop, List.filter, isValidBlue]
  exact ⟨le_refl 1, hb, hout, c7_sampler 1 (le_refl 1) _ hb _ hout⟩

/-- Distance from the blue point `(x, y)` to the corner `(0, 0)`:
`r1 = sqrt(x² + y²)`. -/
noncomputable def r1 (x y : ℝ) : ℝ := Real.sqrt (x ^ 2 + y ^ 2)

/-- Distance from the blue point `(x, y)` to the corner `(1, 0)`:
`r2 = sqrt((1-x)² + y²)`. -/
noncomputable def r2 (x y : ℝ) : ℝ := Real.sqrt ((1 - x) ^ 2 + y ^ 2)

/-- Scalar `np.clip(arg, -1, 1)`. -/
noncomputable def clip (a : ℝ) : ℝ := min 1 (max (-1) a)

/-- Chord angle at the center `(0,0)`: `0` for a zero radius, otherwise
`2·arccos(clip((r1² + 1 - r2²)/(2 r1), -1, 1))`. -/
noncomputable def c_ad (x y : ℝ) : ℝ :=
  if r1 x y = 0 then 0
  else 2 * Real.arccos (clip ((r1 x y ^ 2 + 1 - r2 x y ^ 2) / (2 * r1 x y)))

/-- Chord angle at the center `(1,0)`: `0` for a zero radius, otherwise
`2·arccos(clip((r2² + 1 - r1²)/(2 r2), -1, 1))`. -/
noncomputable def c_bd (x y : ℝ) : ℝ :=
  if r2 x y = 0 then 0
  else 2 * Real.arccos (clip ((r2 x y ^ 2 + 1 - r1 x y ^ 2) / (2 * r2 x y)))

/-- Intersection area of the two circles (lens formula): `0` when either
radius vanishes, else `0.5·(r1²·(c_ad - sin c_ad) + r2²·(c_bd - sin c_bd))`. -/
noncomputable def intersection_area (x y : ℝ) : ℝ :=
  if r1 x y = 0 ∨ r2 x y = 0 then 0
  else 1/2 * (r1 x y ^ 2 * (c_ad x y - Real.sin (c_ad x y)) +
              r2 x y ^ 2 * (c_bd x y - Real.sin (c_bd x y)))

/-- Valid red-point area for a fixed blue point:
`A = π·r1²/4 + π·r2²/4 - intersection_area`. -/
noncomputable def A (x y : ℝ) : ℝ :=
  Real.pi * r1 x y ^ 2 / 4 + Real.pi * r2 x y ^ 2 / 4 - intersection_area x y

theorem clip_le_one (a : ℝ) : clip a ≤ 1 := min_le_left _ _

theorem neg_one_le_clip (a : ℝ) : -1 ≤ clip a :=
  le_min (by norm_num) (le_max_left _ _)

theorem c_ad_nonneg (x y : ℝ) : 0 ≤ c_ad x y := by
  rw [c_ad]
  split
  · exact le_refl 0
  · exact mul_nonneg (by norm_num) (Real.arccos_nonneg _)

theorem c_bd_nonneg (x y : ℝ) : 0 ≤ c_bd x y := by
  rw [c_bd]
  split
  · exact le_refl 0
  · exact mul_nonneg (by norm_num) (Real.arccos_nonneg _)

theorem c_ad_le_two_pi (x y : ℝ) : c_ad x y ≤ 2 * Real.pi := by
  rw [c_ad]
  split
  · positivity
  · exact mul_le_mul_of_nonneg_left (Real.arccos_le_pi _) (by norm_num)

theorem c_bd_le_two_pi (x y : ℝ) : c_bd x y ≤ 2 * Real.pi := by
  rw [c_bd]
  split
  · positivity
  · exact mul_le_mul_of_nonneg_left (Real.arccos_le_pi _) (by norm_num)

theorem sin_le_self_of_nonneg {t : ℝ} (h : 0 ≤ t) : Real.sin t ≤ t := by
  rcases eq_or_lt_of_le h with h | h
  · rw [← h, Real.sin_zero]
  · exact (Real.sin_lt h).le

theorem intersection_area_nonneg (x y : ℝ) : 0 ≤ intersection_area x y := by
  rw [intersection_area]
  split
  · exact le_refl 0
  · have h1 : 0 ≤ c_ad x y - Real.sin (c_ad x y) :=
      sub_nonneg.mpr (sin_le_self_of_nonneg (c_ad_nonneg x y))
    have h2 : 0 ≤ c_bd x y - Real.sin (c_bd x y) :=
      sub_nonneg.mpr (sin_le_self_of_nonneg (c_bd_nonneg x y))
    have := sq_nonneg (r1 x y)
    have := sq_nonneg (r2 x y)
    positivity

/-- Claim C9: for every real input `(x, y)`, `intersection_area(x, y) ≥ 0`:
the chord angles returned by `c_ad` and `c_bd` lie in `[0, 2π]` (arccos of
the clamped argument lies in `[0, π]`), `θ - sin θ ≥ 0` on that range, and
hence both summands of the lens formula are non-negative. -/
theorem c9_lens_nonneg (x y : ℝ) :
    0 ≤ intersection_area x y ∧
    (0 ≤ c_ad x y ∧ c_ad x y ≤ 2 * Real.pi) ∧
    (0 ≤ c_bd x y ∧ c_bd x y ≤ 2 * Real.pi) :=
  ⟨intersection_area_nonneg x y, ⟨c_ad_nonneg x y, c_ad_le_two_pi x y⟩,
    ⟨c_bd_nonneg x y, c_bd_le_two_pi x y⟩⟩

/-- Claim C5: `intersection_area` returns exactly `0` whenever either
radius is zero (`x² + y² = 0` or `(1-x)² + y² = 0`); likewise `c_ad`
returns `0` when `r1 = 0` and `c_bd` returns `0` when `r2 = 0`, the early
return taken before any division by `2·r1` or `2·r2`. -/
theorem c5_zero_radius (x y : ℝ) :
    ((x ^ 2 + y ^ 2 = 0 ∨ (1 - x) ^ 2 + y ^ 2 = 0) →
      intersection_area x y = 0) ∧
    (x ^ 2 + y ^ 2 = 0 → c_ad x y = 0) ∧
    ((1 - x) ^ 2 + y ^ 2 = 0 → c_bd x y = 0) := by
  have hr1 : x ^ 2 + y ^ 2 = 0 → r1 x y = 0 := fun h => by
    rw [r1, h, Real.sqrt_zero]
  have hr2 : (1 - x) ^ 2 + y ^ 2 = 0 → r2 x y = 0 := fun h => by
    rw [r2, h, Real.sqrt_zero]
  refine ⟨fun h => ?_, fun h => ?_, fun h => ?_⟩
  · rw [intersection_area, if_pos (h.imp hr1 hr2)]
  · rw [c_ad, if_pos (hr1 h)]
  · rw [c_bd, if_pos (hr2 h)]

/-- Claim C5 witness: at the corner `(0,0)` the first radius vanishes and
both `intersection_area` and `c_ad` return `0`; at `(1,0)` the second
radius vanishes and `c_bd` returns `0`. -/
theorem c5_zero_radius_witness :
    ((0:ℝ) ^ 2 + (0:ℝ) ^ 2 = 0) ∧ intersection_area 0 0 = 0 ∧
    c_ad 0 0 = 0 ∧ ((1 - (1:ℝ)) ^ 2 + (0:ℝ) ^ 2 = 0) ∧ c_bd 1 0 = 0 :=
  ⟨by norm_num, (c5_zero_radius 0 0).1 (Or.inl (by norm_num)),
    (c5_zero_radius 0 0).2.1 (by norm_num), by norm_num,
    (c5_zero_radius 1 0).2.2 (by norm_num)⟩

/-- Claim C6: for every input with the respective radius nonzero, the
argument passed to `arccos` in `c_ad` and `c_bd` is the clamped value,
which lies in `[-1, 1]`, so the arccos domain-failure branch is
unreachable and both functions are total. -/
theorem c6_arccos_clamped (x y : ℝ) (h1 : r1 x y ≠ 0) (h2 : r2 x y ≠ 0) :
    (-1 ≤ clip ((r1 x y ^ 2 + 1 - r2 x y ^ 2) / (2 * r1 x y)) ∧
      clip ((r1 x y ^ 2 + 1 - r2 x y ^ 2) / (2 * r1 x y)) ≤ 1) ∧
    (-1 ≤ clip ((r2 x y ^ 2 + 1 - r1 x y ^ 2) / (2 * r2 x y)) ∧
      clip ((r2 x y ^ 2 + 1 - r1 x y ^ 2) / (2 * r2 x y)) ≤ 1) ∧
    c_ad x y =
      2 * Real.arccos (clip ((r1 x y ^ 2 + 1 - r2 x y ^ 2) / (2 * r1 x y))) ∧
    c_bd x y =
      2 * Real.arccos (clip ((r2 x y ^ 2 + 1 - r1 x y ^ 2) / (2 * r2 x y))) := by
  refine ⟨⟨neg_one_le_clip _, clip_le_one _⟩,
    ⟨neg_one_le_clip _, clip_le_one _⟩, ?_, ?_⟩
  · rw [c_ad, if_neg h1]
  · rw [c_bd, if_neg h2]

/-- Claim C6 witness: at the blue point `(1/2, 1/4)` both radii are
nonzero, the clamped arccos arguments lie in `[-1, 1]` and the two angle
functions take their arccos branch. -/
theorem c6_arccos_clamped_witness :
    r1 (1/2 : ℝ) (1/4 : ℝ) ≠ 0 ∧ r2 (1/2 : ℝ) (1/4 : ℝ) ≠ 0 ∧
    ((-1 ≤ clip ((r1 (1/2 : ℝ) (1/4) ^ 2 + 1 - r2 (1/2) (1/4) ^ 2) /
        (2 * r1 (1/2) (1/4))) ∧
      clip ((r1 (1/2 : ℝ) (1/4) ^ 2 + 1 - r2 (1/2) (1/4) ^ 2) /
        (2 * r1 (1/2) (1/4))) ≤ 1) ∧
     (-1 ≤ clip ((r2 (1/2 : ℝ) (1/4) ^ 2 + 1 - r1 (1/2) (1/4) ^ 2) /
        (2 * r2 (1/2) (1/4))) ∧
      clip ((r2 (1/2 : ℝ) (1/4) ^ 2 + 1 - r1 (1/2) (1/4) ^ 2) /
        (2 * r2 (1/2) (1/4))) ≤ 1) ∧
     c_ad (1/2) (1/4) =
       2 * Real.arccos (clip ((r1 (1/2 : ℝ) (1/4) ^ 2 + 1 -
         r2 (1/2) (1/4) ^ 2) / (2 * r1 (1/2) (1/4)))) ∧
     c_bd (1/2) (1/4) =
       2 * Real.arccos (clip ((r2 (1/2 : ℝ) (1/4) ^ 2 + 1 -
         r1 (1/2) (1/4) ^ 2) / (2 * r2 (1/2) (1/4))))) := by
  have h1 : r1 (1/2 : ℝ) (1/4 : ℝ) ≠ 0 := by
    rw [r1]
    exact Real.sqrt_ne_zero'.mpr (by norm_num)
  have h2 : r2 (1/2 : ℝ) (1/4 : ℝ) ≠ 0 := by
    rw [r2]
    exact Real.sqrt_ne_zero'.mpr (by norm_num)
  exact ⟨h1, h2, c6_arccos_clamped (1/2) (1/4) h1 h2⟩

theorem r1_sq (x y : ℝ) : r1 x y ^ 2 = x ^ 2 + y ^ 2 :=
  Real.sq_sqrt (by positivity)

theorem r2_sq (x y : ℝ) : r2 x y ^ 2 = (1 - x) ^ 2 + y ^ 2 :=
  Real.sq_sqrt (by positivity)

/-- Claim C4: the valid-area function is symmetric under reflection of the
blue point across the vertical midline, `A(x, y) = A(1-x, y)`: the
reflection swaps `r1` with `r2` and exchanges the two chord angles. -/
theorem c4_reflection (x y : ℝ) : A x y = A (1 - x) y := by
  have h1 : r1 (1 - x) y = r2 x y := rfl
  have h2 : r2 (1 - x) y = r1 x y := by
    rw [r2, r1]
    congr 1
    ring
  have h3 : c_ad (1 - x) y = c_bd x y := by
    rw [c_ad, c_bd, h1, h2]
  have h4 : c_bd (1 - x) y = c_ad x y := by
    rw [c_bd, c_ad, h1, h2]
  have h5 : intersection_area (1 - x) y = intersection_area x y := by
    rw [intersection_area, intersection_area, h1, h2, h3, h4]
    by_cases h : r1 x y = 0 ∨ r2 x y = 0
    · rw [if_pos h.symm, if_pos h]
    · rw [if_neg (fun hc => h hc.symm), if_neg h]
      ring
  rw [A, A, h1, h2, h5]
  ring

theorem c_ad_le_half_pi (x y : ℝ) (h0 : 0 ≤ y) (hyx : y ≤ x)
    (hr : r1 x y ≠ 0) : c_ad x y ≤ Real.pi / 2 := by
  have hx : 0 ≤ x := h0.trans hyx
  have hrpos : 0 < r1 x y :=
    lt_of_le_of_ne (Real.sqrt_nonneg _) (Ne.symm hr)
  have harg : (r1 x y ^ 2 + 1 - r2 x y ^ 2) / (2 * r1 x y) = x / r1 x y := by
    rw [r1_sq, r2_sq]
    have h2x : x ^ 2 + y ^ 2 + 1 - ((1 - x) ^ 2 + y ^ 2) = 2 * x := by ring
    rw [h2x, mul_div_mul_left x (r1 x y) (by norm_num : (2:ℝ) ≠ 0)]
  have hsq : (Real.sqrt 2 / 2 * r1 x y) ^ 2 = (x ^ 2 + y ^ 2) / 2 := by
    rw [mul_pow, div_pow, Real.sq_sqrt (by norm_num : (0:ℝ) ≤ 2), r1_sq]
    ring
  have hy2 : y ^ 2 ≤ x ^ 2 := pow_le_pow_left₀ h0 hyx 2
  have hge : Real.sqrt 2 / 2 ≤ x / r1 x y := by
    rw [le_div_iff₀ hrpos]
    refine le_of_pow_le_pow_left₀ two_ne_zero hx ?_
    rw [hsq]
    linarith
  have hclip : Real.sqrt 2 / 2 ≤ clip (x / r1 x y) := by
    rw [clip]
    refine le_min ?_ (hge.trans (le_max_right _ _))
    nlinarith [Real.sq_sqrt (show (0:ℝ) ≤ 2 by norm_num), Real.sqrt_nonneg 2]
  rw [c_ad, if_neg hr, harg]
  have h4 := Real.arccos_le_pi_div_four.mpr hclip
  linarith

theorem c_bd_le_half_pi (x y : ℝ) (h0 : 0 ≤ y) (hyx : y ≤ 1 - x)
    (hr : r2 x y ≠ 0) : c_bd x y ≤ Real.pi / 2 := by
  have hx : 0 ≤ 1 - x := h0.trans hyx
  have hrpos : 0 < r2 x y :=
    lt_of_le_of_ne (Real.sqrt_nonneg _) (Ne.symm hr)
  have harg : (r2 x y ^ 2 + 1 - r1 x y ^ 2) / (2 * r2 x y) =
      (1 - x) / r2 x y := by
    rw [r1_sq, r2_sq]
    have h2x : (1 - x) ^ 2 + y ^ 2 + 1 - (x ^ 2 + y ^ 2) = 2 * (1 - x) := by
      ring
    rw [h2x, mul_div_mul_left (1 - x) (r2 x y) (by norm_num : (2:ℝ) ≠ 0)]
  have hsq : (Real.sqrt 2 / 2 * r2 x y) ^ 2 = ((1 - x) ^ 2 + y ^ 2) / 2 := by
    rw [mul_pow, div_pow, Real.sq_sqrt (by norm_num : (0:ℝ) ≤ 2), r2_sq]
    ring
  have hy2 : y ^ 2 ≤ (1 - x) ^ 2 := pow_le_pow_left₀ h0 hyx 2
  have hge : Real.sqrt 2 / 2 ≤ (1 - x) / r2 x y := by
    rw [le_div_iff₀ hrpos]
    refine le_of_pow_le_pow_left₀ two_ne_zero hx ?_
    rw [hsq]
    linarith
  have hclip : Real.sqrt 2 / 2 ≤ clip ((1 - x) / r2 x y) := by
    rw [clip]
    refine le_min ?_ (hge.trans (le_max_right _ _))
    nlinarith [Real.sq_sqrt (show (0:ℝ) ≤ 2 by norm_num), Real.sqrt_nonneg 2]
  rw [c_bd, if_neg hr, harg]
  have h4 := Real.arccos_le_pi_div_four.mpr hclip
  linarith

/-- Claim C3: for every blue point `(x, y)` in the canonical triangular
region `0 ≤ y ≤ 1/2`, `y ≤ x`, `y ≤ 1 - x`, the valid area
`A(x, y) = π·r1²/4 + π·r2²/4 - intersection_area(x, y)` lies in `[0, π/2]`;
in particular it is non-negative. -/
theorem c3_valid_area_range (x y : ℝ) (hy0 : 0 ≤ y) (hy1 : y ≤ 1/2)
    (hyx : y ≤ x) (hyx1 : y ≤ 1 - x) :
    0 ≤ A x y ∧ A x y ≤ Real.pi / 2 := by
  have hx0 : 0 ≤ x := hy0.trans hyx
  have hx1 : x ≤ 1 := by linarith [hy0.trans hyx1]
  have hpi := Real.pi_pos
  have hsum : r1 x y ^ 2 + r2 x y ^ 2 ≤ 3 / 2 := by
    rw [r1_sq, r2_sq]
    nlinarith [mul_nonneg hx0 (sub_nonneg.mpr hx1), mul_self_le_mul_self hy0 hy1]
  constructor
  · rw [A, intersection_area]
    split_ifs with h
    · have hq1 := sq_nonneg (r1 x y)
      have hq2 := sq_nonneg (r2 x y)
      rw [sub_zero]
      positivity
    · push_neg at h
      obtain ⟨h1, h2⟩ := h
      have ha1 : c_ad x y ≤ Real.pi / 2 := c_ad_le_half_pi x y hy0 hyx h1
      have ha2 : c_bd x y ≤ Real.pi / 2 := c_bd_le_half_pi x y hy0 hyx1 h2
      have hs1 : 0 ≤ Real.sin (c_ad x y) :=
        Real.sin_nonneg_of_nonneg_of_le_pi (c_ad_nonneg x y) (by linarith)
      have hs2 : 0 ≤ Real.sin (c_bd x y) :=
        Real.sin_nonneg_of_nonneg_of_le_pi (c_bd_nonneg x y) (by linarith)
      have ht1 : c_ad x y - Real.sin (c_ad x y) ≤ Real.pi / 2 := by linarith
      have ht2 : c_bd x y - Real.sin (c_bd x y) ≤ Real.pi / 2 := by linarith
      have hk1 : r1 x y ^ 2 * (c_ad x y - Real.sin (c_ad x y)) ≤
          r1 x y ^ 2 * (Real.pi / 2) :=
        mul_le_mul_of_nonneg_left ht1 (sq_nonneg _)
      have hk2 : r2 x y ^ 2 * (c_bd x y - Real.sin (c_bd x y)) ≤
          r2 x y ^ 2 * (Real.pi / 2) :=
        mul_le_mul_of_nonneg_left ht2 (sq_nonneg _)
      nlinarith [hk1, hk2]
  · rw [A]
    have hmul : Real.pi * (r1 x y ^ 2 + r2 x y ^ 2) ≤ Real.pi * (3 / 2) :=
      mul_le_mul_of_nonneg_left hsum hpi.le
    linarith [intersection_area_nonneg x y]

/-- Claim C3 witness: the blue point `(1/2, 1/4)` lies in the canonical
triangle and its valid area lies in `[0, π/2]`. -/
theorem c3_valid_area_range_witness :
    (0 ≤ (1/4 : ℝ)) ∧ ((1/4 : ℝ) ≤ 1/2) ∧ ((1/4 : ℝ) ≤ 1/2) ∧
    ((1/4 : ℝ) ≤ 1 - 1/2) ∧
    (0 ≤ A (1/2) (1/4) ∧ A (1/2) (1/4) ≤ Real.pi / 2) :=
  ⟨by norm_num, by norm_num, by norm_num, by norm_num,
    c3_valid_area_range (1/2) (1/4) (by norm_num) (by norm_num)
      (by norm_num) (by norm_num)⟩

end BesideThePoint
